import Mathlib

/-!
Shallow embedding of the URAP protocol engine (`src/lib.rs`, `src/usockets.rs`).

Bytes are modelled as `Nat` (the invariant `< 256` is carried as a
hypothesis where a theorem needs it).  A duplex byte stream is modelled as a
`List Nat` of the bytes that the peer has transmitted: reading consumes a
prefix, and an `embedded_io::read_exact` that runs off the end of the list is
the `UnexpectedEof` case, which the library maps to `Error::IncompletePacket`.
A Rust panic (slice index out of bounds, failed `assert!`) is modelled by an
`Option` result being `none`.
-/

set_option maxRecDepth 100000

namespace Urap

def URAP_DATA_WIDTH : Nat := 4
def URAP_CRC_WIDTH : Nat := 1
def URAP_REG_WIDTH : Nat := 2
def URAP_COUNT_WIDTH : Nat := 1
def URAP_HEAD_WIDTH : Nat := URAP_COUNT_WIDTH
def URAP_ACK_WIDTH : Nat := 1
def URAP_WRITE_OR : Nat := 0x80
def URAP_COUNT_MAX : Nat := 128

/-- CRC Table for polynomial 0x1D (`CRC_TABLE` in `lib.rs`). -/
def CRC_TABLE : List Nat := [
 0x00, 0x1D, 0x3A, 0x27, 0x74, 0x69, 0x4E, 0x53, 0xE8, 0xF5, 0xD2, 0xCF, 0x9C, 0x81, 0xA6, 0xBB,
 0xCD, 0xD0, 0xF7, 0xEA, 0xB9, 0xA4, 0x83, 0x9E, 0x25, 0x38, 0x1F, 0x02, 0x51, 0x4C, 0x6B, 0x76,
 0x87, 0x9A, 0xBD, 0xA0, 0xF3, 0xEE, 0xC9, 0xD4, 0x6F, 0x72, 0x55, 0x48, 0x1B, 0x06, 0x21, 0x3C,
 0x4A, 0x57, 0x70, 0x6D, 0x3E, 0x23, 0x04, 0x19, 0xA2, 0xBF, 0x98, 0x85, 0xD6, 0xCB, 0xEC, 0xF1,
 0x13, 0x0E, 0x29, 0x34, 0x67, 0x7A, 0x5D, 0x40, 0xFB, 0xE6, 0xC1, 0xDC, 0x8F, 0x92, 0xB5, 0xA8,
 0xDE, 0xC3, 0xE4, 0xF9, 0xAA, 0xB7, 0x90, 0x8D, 0x36, 0x2B, 0x0C, 0x11, 0x42, 0x5F, 0x78, 0x65,
 0x94, 0x89, 0xAE, 0xB3, 0xE0, 0xFD, 0xDA, 0xC7, 0x7C, 0x61, 0x46, 0x5B, 0x08, 0x15, 0x32, 0x2F,
 0x59, 0x44, 0x63, 0x7E, 0x2D, 0x30, 0x17, 0x0A, 0xB1, 0xAC, 0x8B, 0x96, 0xC5, 0xD8, 0xFF, 0xE2,
 0x26, 0x3B, 0x1C, 0x01, 0x52, 0x4F, 0x68, 0x75, 0xCE, 0xD3, 0xF4, 0xE9, 0xBA, 0xA7, 0x80, 0x9D,
 0xEB, 0xF6, 0xD1, 0xCC, 0x9F, 0x82, 0xA5, 0xB8, 0x03, 0x1E, 0x39, 0x24, 0x77, 0x6A, 0x4D, 0x50,
 0xA1, 0xBC, 0x9B, 0x86, 0xD5, 0xC8, 0xEF, 0xF2, 0x49, 0x54, 0x73, 0x6E, 0x3D, 0x20, 0x07, 0x1A,
 0x6C, 0x71, 0x56, 0x4B, 0x18, 0x05, 0x22, 0x3F, 0x84, 0x99, 0xBE, 0xA3, 0xF0, 0xED, 0xCA, 0xD7,
 0x35, 0x28, 0x0F, 0x12, 0x41, 0x5C, 0x7B, 0x66, 0xDD, 0xC0, 0xE7, 0xFA, 0xA9, 0xB4, 0x93, 0x8E,
 0xF8, 0xE5, 0xC2, 0xDF, 0x8C, 0x91, 0xB6, 0xAB, 0x10, 0x0D, 0x2A, 0x37, 0x64, 0x79, 0x5E, 0x43,
 0xB2, 0xAF, 0x88, 0x95, 0xC6, 0xDB, 0xFC, 0xE1, 0x5A, 0x47, 0x60, 0x7D, 0x2E, 0x33, 0x14, 0x09,
 0x7F, 0x62, 0x45, 0x58, 0x0B, 0x16, 0x31, 0x2C, 0x97, 0x8A, 0xAD, 0xB0, 0xE3, 0xFE, 0xD9, 0xC4]

/-- Inverse of `CRC_TABLE` as a permutation of `0..256` (a proof device for
injectivity of the table lookup; not part of the source). -/
def CRC_INV : List Nat := [
 0x00, 0x83, 0x1B, 0x98, 0x36, 0xB5, 0x2D, 0xAE, 0x6C, 0xEF, 0x77, 0xF4, 0x5A, 0xD9, 0x41, 0xC2,
 0xD8, 0x5B, 0xC3, 0x40, 0xEE, 0x6D, 0xF5, 0x76, 0xB4, 0x37, 0xAF, 0x2C, 0x82, 0x01, 0x99, 0x1A,
 0xAD, 0x2E, 0xB6, 0x35, 0x9B, 0x18, 0x80, 0x03, 0xC1, 0x42, 0xDA, 0x59, 0xF7, 0x74, 0xEC, 0x6F,
 0x75, 0xF6, 0x6E, 0xED, 0x43, 0xC0, 0x58, 0xDB, 0x19, 0x9A, 0x02, 0x81, 0x2F, 0xAC, 0x34, 0xB7,
 0x47, 0xC4, 0x5C, 0xDF, 0x71, 0xF2, 0x6A, 0xE9, 0x2B, 0xA8, 0x30, 0xB3, 0x1D, 0x9E, 0x06, 0x85,
 0x9F, 0x1C, 0x84, 0x07, 0xA9, 0x2A, 0xB2, 0x31, 0xF3, 0x70, 0xE8, 0x6B, 0xC5, 0x46, 0xDE, 0x5D,
 0xEA, 0x69, 0xF1, 0x72, 0xDC, 0x5F, 0xC7, 0x44, 0x86, 0x05, 0x9D, 0x1E, 0xB0, 0x33, 0xAB, 0x28,
 0x32, 0xB1, 0x29, 0xAA, 0x04, 0x87, 0x1F, 0x9C, 0x5E, 0xDD, 0x45, 0xC6, 0x68, 0xEB, 0x73, 0xF0,
 0x8E, 0x0D, 0x95, 0x16, 0xB8, 0x3B, 0xA3, 0x20, 0xE2, 0x61, 0xF9, 0x7A, 0xD4, 0x57, 0xCF, 0x4C,
 0x56, 0xD5, 0x4D, 0xCE, 0x60, 0xE3, 0x7B, 0xF8, 0x3A, 0xB9, 0x21, 0xA2, 0x0C, 0x8F, 0x17, 0x94,
 0x23, 0xA0, 0x38, 0xBB, 0x15, 0x96, 0x0E, 0x8D, 0x4F, 0xCC, 0x54, 0xD7, 0x79, 0xFA, 0x62, 0xE1,
 0xFB, 0x78, 0xE0, 0x63, 0xCD, 0x4E, 0xD6, 0x55, 0x97, 0x14, 0x8C, 0x0F, 0xA1, 0x22, 0xBA, 0x39,
 0xC9, 0x4A, 0xD2, 0x51, 0xFF, 0x7C, 0xE4, 0x67, 0xA5, 0x26, 0xBE, 0x3D, 0x93, 0x10, 0x88, 0x0B,
 0x11, 0x92, 0x0A, 0x89, 0x27, 0xA4, 0x3C, 0xBF, 0x7D, 0xFE, 0x66, 0xE5, 0x4B, 0xC8, 0x50, 0xD3,
 0x64, 0xE7, 0x7F, 0xFC, 0x52, 0xD1, 0x49, 0xCA, 0x08, 0x8B, 0x13, 0x90, 0x3E, 0xBD, 0x25, 0xA6,
 0xBC, 0x3F, 0xA7, 0x24, 0x8A, 0x09, 0x91, 0x12, 0xD0, 0x53, 0xCB, 0x48, 0xE6, 0x65, 0xFD, 0x7E]

/-- One step of the CRC loop: `crc = CRC_TABLE[(*byte ^ crc) as usize]`. -/
def crcStep (acc byte : Nat) : Nat := CRC_TABLE.getD (byte ^^^ acc) 0

/-- `crc(start_crc, data)` from `lib.rs`: fold the table lookup over the data. -/
def crc (start_crc : Nat) (data : List Nat) : Nat :=
  data.foldl crcStep start_crc

/-- ACK byte, `0xAA`. -/
def ACK : Nat := 0xAA

/-- `NakCode` enumeration from `lib.rs`. -/
inductive NakCode where
  | Unknown
  | SecondaryFailure
  | BadCrc
  | OutOfBounds
  | IncompletePacket
  | IndexWriteProtected
  | CountExceedsBounds
deriving DecidableEq, Repr

/-- The `#[repr(u8)]` discriminants of `NakCode`. -/
def nakCodeToByte : NakCode → Nat
  | NakCode.Unknown => 0
  | NakCode.SecondaryFailure => 1
  | NakCode.BadCrc => 2
  | NakCode.OutOfBounds => 3
  | NakCode.IncompletePacket => 4
  | NakCode.IndexWriteProtected => 5
  | NakCode.CountExceedsBounds => 6

/-- `impl From<u8> for NakCode` from `lib.rs`. -/
def nakCodeOfByte : Nat → NakCode
  | 1 => NakCode.SecondaryFailure
  | 2 => NakCode.BadCrc
  | 3 => NakCode.OutOfBounds
  | 4 => NakCode.IncompletePacket
  | 5 => NakCode.IndexWriteProtected
  | 6 => NakCode.CountExceedsBounds
  | _ => NakCode.Unknown

/-- `read_exact` on the stream model: take exactly `n` bytes or fail (EOF). -/
def takeExact (n : Nat) (l : List Nat) : Option (List Nat × List Nat) :=
  if n ≤ l.length then some (l.take n, l.drop n) else none

/-- Reinterpret a flat byte list as 4-byte registers
(`bytemuck::from_bytes::<[[u8; 4]; 128]>` / `cast_slice`). -/
def chunks4 : List Nat → List (List Nat)
  | a :: b :: c :: d :: rest => [a, b, c, d] :: chunks4 rest
  | _ => []

/-- Rust slice indexing `l[s..e]`: `none` models the out-of-bounds panic. -/
def sliceRange (l : List α) (s e : Nat) : Option (List α) :=
  if s ≤ e ∧ e ≤ l.length then some ((l.drop s).take (e - s)) else none

/-- `UrapRecievedPacket` from `lib.rs` (sic). -/
structure UrapRecievedPacket where
  count : Nat
  start_register : Nat
  write_buffer : Option (List (List Nat))
  nak_code : Option NakCode
deriving DecidableEq, Repr

/-- The NakCode cascade of `poll`'s write branch (`lib.rs` lines 268-286). -/
def writeNakOf (regcnt : Nat) (writeprotect : List Bool)
    (calcd_crc start_register count : Nat) : Option NakCode :=
  if calcd_crc ≠ 0 then some NakCode.BadCrc
  else if regcnt ≤ start_register then some NakCode.OutOfBounds
  else if regcnt < start_register + count then some NakCode.CountExceedsBounds
  else if ((writeprotect.drop start_register).take count).foldl
      (fun w r => w || r) false then some NakCode.IndexWriteProtected
  else none

/-- The NakCode cascade of `poll`'s read branch (`lib.rs` lines 303-311). -/
def readNakOf (regcnt : Nat) (calcd_crc start_register count : Nat) :
    Option NakCode :=
  if calcd_crc ≠ 0 then some NakCode.BadCrc
  else if regcnt ≤ start_register then some NakCode.OutOfBounds
  else if regcnt < start_register + count then some NakCode.CountExceedsBounds
  else none

/-- Non-I/O error surface of `poll`/`read_4u8` in the stream model (`Error` in
`lib.rs`, restricted to the variants a pure byte stream can produce). -/
inductive StreamError where
  | incompletePacket
deriving DecidableEq, Repr

/-- `UrapSecondary::poll` on the stream model.  `regcnt` is the const generic
`REGCNT`, `writeprotect` the write-protect mask, `input` the bytes available
on the stream.  Result: `none` for an empty stream, otherwise the decoded and
validated `UrapRecievedPacket` together with the unconsumed rest of the
stream. -/
def poll (regcnt : Nat) (writeprotect : List Bool) (input : List Nat) :
    Except StreamError (Option (UrapRecievedPacket × List Nat)) :=
  match input with
  | [] => Except.ok none
  | _ :: _ =>
    match takeExact (URAP_HEAD_WIDTH + URAP_REG_WIDTH) input with
    | none => Except.error StreamError.incompletePacket
    | some (header, rest1) =>
      let head := header.getD 0 0
      let write := head &&& URAP_WRITE_OR ≠ 0
      let count := (head &&& 0x7F) + 1
      let calcd_crc := crc 0 header
      let start_register := header.getD 1 0 + 256 * header.getD 2 0
      if write then
        match takeExact (count * URAP_DATA_WIDTH + URAP_CRC_WIDTH) rest1 with
        | none => Except.error StreamError.incompletePacket
        | some (body, rest2) =>
          let calcd_crc := crc calcd_crc body
          let nak_code := writeNakOf regcnt writeprotect calcd_crc start_register count
          let buffer := (body ++ List.replicate
            (URAP_DATA_WIDTH * URAP_COUNT_MAX + URAP_CRC_WIDTH) 0).take
            (URAP_DATA_WIDTH * URAP_COUNT_MAX)
          Except.ok (some (⟨count, start_register, some (chunks4 buffer), nak_code⟩, rest2))
      else
        match takeExact URAP_CRC_WIDTH rest1 with
        | none => Except.error StreamError.incompletePacket
        | some (body, rest2) =>
          let calcd_crc := crc calcd_crc body
          let nak_code := readNakOf regcnt calcd_crc start_register count
          Except.ok (some (⟨count, start_register, none, nak_code⟩, rest2))

/-- `UrapSecondary::process` on the stream model.  Result `some (out, regs)`:
the bytes written to the stream and the register bank afterwards; `none`
models a panic (out-of-bounds slice). -/
def process (recieved_packet : UrapRecievedPacket)
    (registers : List (List Nat)) : Option (List Nat × List (List Nat)) :=
  match recieved_packet.nak_code with
  | some nak_code => some ([nakCodeToByte nak_code], registers)
  | none =>
    let start_register := recieved_packet.start_register
    let end_register := recieved_packet.start_register + recieved_packet.count
    match recieved_packet.write_buffer with
    | some write_buffer =>
      match sliceRange write_buffer start_register end_register with
      | none => none
      | some src =>
        if end_register ≤ registers.length then
          some ([ACK],
            registers.take start_register ++ src ++ registers.drop end_register)
        else none
    | none =>
      match sliceRange registers start_register end_register with
      | none => none
      | some regs =>
        let reg_bytes := regs.flatten
        let calcd_crc := crc 0 reg_bytes
        some (ACK :: (reg_bytes ++ [calcd_crc]), registers)

/-- The 4-byte read request `UrapPrimary::read_4u8` transmits. -/
def read4u8Request (start_register len : Nat) : List Nat :=
  let count := len - 1
  let a0 := start_register % 256
  let a1 := start_register / 256 % 256
  let calcd_crc := crc (crc 0 [count]) [a0, a1]
  [count, a0, a1, calcd_crc]

/-- The write request `UrapPrimary::write_4u8` transmits. -/
def write4u8Request (start_register : Nat) (data : List (List Nat)) : List Nat :=
  let count := data.length - 1
  let head := count ||| URAP_WRITE_OR
  let a0 := start_register % 256
  let a1 := start_register / 256 % 256
  let body := [head, a0, a1] ++ data.flatten
  body ++ [crc 0 body]

/-- Errors `read_4u8` / `write_4u8` can return in the stream model. -/
inductive PrimError where
  | nak (code : NakCode)
  | badCrc
  | incompletePacket
deriving DecidableEq, Repr

/-- `UrapPrimary::read_4u8` on the stream model.  `len` is `data.len()`,
`response` the bytes the peer will answer with.  Result
`some (request, result, rest)`: the transmitted request, the outcome (the
filled buffer on success), and what is left of the response stream; `none`
models a failed `assert!`. -/
def read_4u8 (start_register len : Nat) (response : List Nat) :
    Option (List Nat × Except PrimError (List Nat) × List Nat) :=
  if len < URAP_COUNT_MAX ∧ len ≠ 0 then
    let request := read4u8Request start_register len
    match takeExact 1 response with
    | none => some (request, Except.error PrimError.incompletePacket, [])
    | some (ack_or_nak, r1) =>
      if ack_or_nak.getD 0 0 ≠ ACK then
        some (request,
          Except.error (PrimError.nak (nakCodeOfByte (ack_or_nak.getD 0 0))), r1)
      else
        match takeExact (len * URAP_DATA_WIDTH) r1 with
        | none => some (request, Except.error PrimError.incompletePacket, [])
        | some (data_bytes, r2) =>
          let calcd_crc := crc 0 data_bytes
          match takeExact URAP_CRC_WIDTH r2 with
          | none => some (request, Except.error PrimError.incompletePacket, [])
          | some (crc_data, r3) =>
            if crc calcd_crc crc_data ≠ 0 then
              some (request, Except.error PrimError.badCrc, r3)
            else
              some (request, Except.ok data_bytes, r3)
  else none

/-- `UrapPrimary::write_4u8` on the stream model (same conventions). -/
def write_4u8 (start_register : Nat) (data : List (List Nat))
    (response : List Nat) :
    Option (List Nat × Except PrimError Unit × List Nat) :=
  if data.length < URAP_COUNT_MAX ∧ data.length ≠ 0 then
    let request := write4u8Request start_register data
    match takeExact 1 response with
    | none => some (request, Except.error PrimError.incompletePacket, [])
    | some (ack_or_nak, r1) =>
      if ack_or_nak.getD 0 0 ≠ ACK then
        some (request,
          Except.error (PrimError.nak (nakCodeOfByte (ack_or_nak.getD 0 0))), r1)
      else
        some (request, Except.ok (), r1)
  else none

/-! ### CRC lemmas -/

theorem crc_nil (s : Nat) : crc s [] = s := rfl

theorem crc_cons (s b : Nat) (l : List Nat) : crc s (b :: l) = crc (crcStep s b) l := rfl

theorem crc_append (s : Nat) (a b : List Nat) : crc s (a ++ b) = crc (crc s a) b :=
  List.foldl_append crcStep s a b

theorem crcTable_mem_lt : ∀ x ∈ CRC_TABLE, x < 256 := by decide

theorem crcTable_getD_lt (i : Nat) : CRC_TABLE.getD i 0 < 256 := by
  rcases lt_or_le i CRC_TABLE.length with h | h
  · rw [List.getD_eq_getElem?_getD, List.getElem?_eq_getElem h]
    exact crcTable_mem_lt _ (List.getElem_mem h)
  · rw [List.getD_eq_getElem?_getD, List.getElem?_eq_none h]
    decide

theorem crcStep_lt (acc b : Nat) : crcStep acc b < 256 :=
  crcTable_getD_lt _

theorem crc_lt {s : Nat} (l : List Nat) (hs : s < 256) : crc s l < 256 := by
  induction l generalizing s with
  | nil => exact hs
  | cons b t ih => exact ih (crcStep_lt s b)

theorem crcInv_left : ∀ a < 256, CRC_INV.getD (CRC_TABLE.getD a 0) 0 = a := by decide

theorem crcTable_inj {a b : Nat} (ha : a < 256) (hb : b < 256)
    (h : CRC_TABLE.getD a 0 = CRC_TABLE.getD b 0) : a = b := by
  have h1 := crcInv_left a ha
  have h2 := crcInv_left b hb
  rw [h] at h1
  omega

theorem xor_lt_256 {a b : Nat} (ha : a < 256) (hb : b < 256) : a ^^^ b < 256 := by
  have h := Nat.xor_lt_two_pow (x := a) (y := b) (n := 8)
  norm_num at h
  exact h ha hb

theorem crcStep_inj_byte {acc b1 b2 : Nat} (hacc : acc < 256)
    (h1 : b1 < 256) (h2 : b2 < 256) (h : crcStep acc b1 = crcStep acc b2) :
    b1 = b2 := by
  have hx := crcTable_inj (xor_lt_256 h1 hacc) (xor_lt_256 h2 hacc) h
  have := congrArg (fun z => z ^^^ acc) hx
  simpa [Nat.xor_assoc, Nat.xor_self] using this

theorem crcStep_inj_acc {b a1 a2 : Nat} (hb : b < 256)
    (h1 : a1 < 256) (h2 : a2 < 256) (h : crcStep a1 b = crcStep a2 b) :
    a1 = a2 := by
  have hx := crcTable_inj (xor_lt_256 hb h1) (xor_lt_256 hb h2) h
  have := congrArg (fun z => b ^^^ z) hx
  simpa [Nat.xor_cancel_left] using this

theorem crc_inj_acc (l : List Nat) (hl : ∀ x ∈ l, x < 256) :
    ∀ {a1 a2 : Nat}, a1 < 256 → a2 < 256 → crc a1 l = crc a2 l → a1 = a2 := by
  induction l with
  | nil => intro a1 a2 _ _ h; exact h
  | cons b t ih =>
    intro a1 a2 h1 h2 h
    have hb : b < 256 := hl b (List.mem_cons_self b t)
    have ht : ∀ x ∈ t, x < 256 := fun x hx => hl x (List.mem_cons_of_mem b hx)
    exact crcStep_inj_acc hb h1 h2
      (ih ht (crcStep_lt a1 b) (crcStep_lt a2 b) h)

/-- Corrupting a single byte of a CRC-valid byte sequence always makes the
running CRC of the whole sequence nonzero. -/
theorem crc_flip_ne {pre post : List Nat} {b b' : Nat}
    (hb : b < 256) (hb' : b' < 256) (hne : b ≠ b')
    (hpost : ∀ x ∈ post, x < 256)
    (h0 : crc 0 (pre ++ b :: post) = 0) :
    crc 0 (pre ++ b' :: post) ≠ 0 := by
  intro h0'
  rw [crc_append, crc_cons] at h0 h0'
  have hA : crc 0 pre < 256 := crc_lt pre (by norm_num)
  have hXX : crcStep (crc 0 pre) b = crcStep (crc 0 pre) b' :=
    crc_inj_acc post hpost (crcStep_lt _ _) (crcStep_lt _ _) (h0.trans h0'.symm)
  exact hne (crcStep_inj_byte hA hb hb' hXX)

/-! ### Stream and poll lemmas -/

theorem takeExact_append (a b : List Nat) : takeExact a.length (a ++ b) = some (a, b) := by
  simp [takeExact, List.take_left, List.drop_left]

theorem takeExact_inv {n : Nat} {l : List Nat} {p : List Nat × List Nat}
    (h : takeExact n l = some p) : p.1.length = n ∧ l = p.1 ++ p.2 := by
  unfold takeExact at h
  split at h
  next hle =>
    cases h
    refine ⟨?_, (List.take_append_drop n l).symm⟩
    simpa [List.length_take] using hle
  next => cases h

/-- Evaluation of `poll` on a write-request-shaped stream. -/
theorem poll_write_eq (regcnt : Nat) (wp : List Bool) (head a0 a1 : Nat)
    (body extra : List Nat) (hw : head &&& URAP_WRITE_OR ≠ 0)
    (hlen : body.length = ((head &&& 0x7F) + 1) * URAP_DATA_WIDTH + URAP_CRC_WIDTH) :
    poll regcnt wp (head :: a0 :: a1 :: (body ++ extra)) =
      Except.ok (some (⟨(head &&& 0x7F) + 1, a0 + 256 * a1,
        some (chunks4 ((body ++ List.replicate 513 0).take 512)),
        writeNakOf regcnt wp (crc 0 (head :: a0 :: a1 :: body)) (a0 + 256 * a1)
          ((head &&& 0x7F) + 1)⟩, extra)) := by
  have h3 : takeExact (URAP_HEAD_WIDTH + URAP_REG_WIDTH)
      (head :: a0 :: a1 :: (body ++ extra)) = some ([head, a0, a1], body ++ extra) := by
    simpa using takeExact_append [head, a0, a1] (body ++ extra)
  have hb : takeExact (((head &&& 0x7F) + 1) * URAP_DATA_WIDTH + URAP_CRC_WIDTH)
      (body ++ extra) = some (body, extra) := by
    rw [← hlen]; exact takeExact_append body extra
  simp only [poll, h3, List.getD_cons_zero, List.getD_cons_succ, if_pos hw, hb]
  have hcrc : crc (crc 0 [head, a0, a1]) body = crc 0 (head :: a0 :: a1 :: body) :=
    (crc_append 0 [head, a0, a1] body).symm
  rw [hcrc]
  rfl

/-- Evaluation of `poll` on a read-request-shaped stream. -/
theorem poll_read_eq (regcnt : Nat) (wp : List Bool) (head a0 a1 c : Nat)
    (extra : List Nat) (hw : head &&& URAP_WRITE_OR = 0) :
    poll regcnt wp (head :: a0 :: a1 :: c :: extra) =
      Except.ok (some (⟨(head &&& 0x7F) + 1, a0 + 256 * a1, none,
        readNakOf regcnt (crc 0 [head, a0, a1, c]) (a0 + 256 * a1)
          ((head &&& 0x7F) + 1)⟩, extra)) := by
  have h3 : takeExact (URAP_HEAD_WIDTH + URAP_REG_WIDTH)
      (head :: a0 :: a1 :: c :: extra) = some ([head, a0, a1], c :: extra) := by
    simpa using takeExact_append [head, a0, a1] (c :: extra)
  have h1 : takeExact URAP_CRC_WIDTH (c :: extra) = some ([c], extra) := by
    simpa using takeExact_append [c] extra
  simp only [poll, h3, List.getD_cons_zero, List.getD_cons_succ, hw, if_neg, h1]
  have hcrc : crc (crc 0 [head, a0, a1]) [c] = crc 0 [head, a0, a1, c] :=
    (crc_append 0 [head, a0, a1] [c]).symm
  simp [hcrc]

/-- Inversion of `poll` on any stream that yields a packet. -/
theorem poll_inv {regcnt : Nat} {wp : List Bool} {input : List Nat}
    {pkt : UrapRecievedPacket} {rest : List Nat}
    (h : poll regcnt wp input = Except.ok (some (pkt, rest))) :
    ∃ head a0 a1,
      (head &&& URAP_WRITE_OR ≠ 0 ∧ ∃ body,
        input = head :: a0 :: a1 :: (body ++ rest) ∧
        body.length = ((head &&& 0x7F) + 1) * URAP_DATA_WIDTH + URAP_CRC_WIDTH ∧
        pkt = ⟨(head &&& 0x7F) + 1, a0 + 256 * a1,
          some (chunks4 ((body ++ List.replicate 513 0).take 512)),
          writeNakOf regcnt wp (crc 0 (head :: a0 :: a1 :: body)) (a0 + 256 * a1)
            ((head &&& 0x7F) + 1)⟩) ∨
      (head &&& URAP_WRITE_OR = 0 ∧ ∃ c,
        input = head :: a0 :: a1 :: c :: rest ∧
        pkt = ⟨(head &&& 0x7F) + 1, a0 + 256 * a1, none,
          readNakOf regcnt (crc 0 [head, a0, a1, c]) (a0 + 256 * a1)
            ((head &&& 0x7F) + 1)⟩) := by
  match input with
  | [] => simp [poll] at h
  | [x] => simp [poll, takeExact, URAP_HEAD_WIDTH, URAP_REG_WIDTH, URAP_COUNT_WIDTH] at h
  | [x, y] => simp [poll, takeExact, URAP_HEAD_WIDTH, URAP_REG_WIDTH, URAP_COUNT_WIDTH] at h
  | x :: y :: z :: t =>
    have h3 : takeExact (URAP_HEAD_WIDTH + URAP_REG_WIDTH) (x :: y :: z :: t)
        = some ([x, y, z], t) := by
      simpa using takeExact_append [x, y, z] t
    refine ⟨x, y, z, ?_⟩
    by_cases hw : x &&& URAP_WRITE_OR ≠ 0
    · left
      refine ⟨hw, ?_⟩
      cases htk : takeExact (((x &&& 0x7F) + 1) * URAP_DATA_WIDTH + URAP_CRC_WIDTH) t with
      | none =>
        have herr : poll regcnt wp (x :: y :: z :: t) =
            Except.error StreamError.incompletePacket := by
          simp only [poll, h3, List.getD_cons_zero, List.getD_cons_succ, if_pos hw, htk]
        rw [herr] at h
        exact Except.noConfusion h
      | some p =>
        obtain ⟨body, rest2⟩ := p
        obtain ⟨hplen, hpeq⟩ := takeExact_inv htk
        simp only at hplen hpeq
        rw [hpeq] at h
        rw [poll_write_eq regcnt wp x y z body rest2 hw hplen] at h
        rw [Except.ok.injEq, Option.some.injEq, Prod.mk.injEq] at h
        obtain ⟨hpkt, hrest⟩ := h
        exact ⟨body, by rw [hpeq, hrest], hplen, hpkt.symm⟩
    · right
      rw [not_ne_iff] at hw
      refine ⟨hw, ?_⟩
      cases htk : takeExact URAP_CRC_WIDTH t with
      | none =>
        have herr : poll regcnt wp (x :: y :: z :: t) =
            Except.error StreamError.incompletePacket := by
          simp only [poll, h3, List.getD_cons_zero, List.getD_cons_succ, hw,
            ne_eq, not_true_eq_false, if_false, htk]
        rw [herr] at h
        exact Except.noConfusion h
      | some p =>
        obtain ⟨body, rest2⟩ := p
        obtain ⟨hplen, hpeq⟩ := takeExact_inv htk
        simp only at hplen hpeq
        obtain ⟨c, hc⟩ : ∃ c, body = [c] := by
          match body, hplen with
          | [c], _ => exact ⟨c, rfl⟩
        subst hc
        rw [hpeq] at h
        rw [List.singleton_append] at h
        rw [poll_read_eq regcnt wp x y z c rest2 hw] at h
        rw [Except.ok.injEq, Option.some.injEq, Prod.mk.injEq] at h
        obtain ⟨hpkt, hrest⟩ := h
        exact ⟨c, by rw [hpeq, hrest]; rfl, hpkt.symm⟩

/-- `process` on a packet carrying a NakCode: one NAK byte, bank untouched. -/
theorem process_nak_eq (pkt : UrapRecievedPacket) (regs : List (List Nat))
    (nak : NakCode) (h : pkt.nak_code = some nak) :
    process pkt regs = some ([nakCodeToByte nak], regs) := by
  unfold process
  rw [h]

/-! ### Claim theorems -/

/-- C8: CRC self-check identity: for every byte sequence `b`,
`crc(0, b ++ [crc(0, b)]) = 0`, with `crc` folding `CRC_TABLE[byte XOR acc]`
over the bytes. -/
theorem crc_self_check (b : List Nat) : crc 0 (b ++ [crc 0 b]) = 0 := by
  rw [crc_append]
  show crcStep (crc 0 b) (crc 0 b) = 0
  unfold crcStep
  rw [Nat.xor_self]
  rfl

/-- C4: the claim says every buffer length in `1..=128` passes the
precondition checks of `read_4u8`/`write_4u8`, but the code asserts
`data.len() < URAP_COUNT_MAX`, i.e. `< 128`: length 128 fails the assertion
(model: `none`), while every length in `1..=127` passes and a zero-length
slice fails, so the code is off by one against the claim and the wire
format (which encodes `count - 1` in 7 bits, hence supports 128). -/
theorem primary_count_precondition_off_by_one :
    read_4u8 0 128 [] = none ∧
    write_4u8 0 (List.replicate 128 [0, 0, 0, 0]) [] = none ∧
    read_4u8 0 0 [] = none ∧
    (∀ s len response, 1 ≤ len → len ≤ 127 →
      (read_4u8 s len response).isSome = true) ∧
    (∀ s data response, List.length data ≥ 1 → List.length data ≤ 127 →
      (write_4u8 s data response).isSome = true) := by
  refine ⟨rfl, rfl, rfl, ?_, ?_⟩
  · intro s len response h1 h2
    unfold read_4u8
    rw [if_pos (⟨by unfold URAP_COUNT_MAX; omega, by omega⟩ :
      len < URAP_COUNT_MAX ∧ len ≠ 0)]
    repeat' split
    all_goals first
    | rfl
    | (dsimp only; split <;> rfl)
  · intro s data response h1 h2
    unfold write_4u8
    rw [if_pos (⟨by unfold URAP_COUNT_MAX; omega, by omega⟩ :
      data.length < URAP_COUNT_MAX ∧ data.length ≠ 0)]
    repeat' split
    all_goals rfl

theorem primary_count_precondition_off_by_one_witness :
    (read_4u8 0 1 []).isSome = true :=
  primary_count_precondition_off_by_one.2.2.2.1 0 1 [] (by decide) (by decide)

/-- C1: the round-trip claim fails on the code.  For the register bank of 2
registers, a valid write request of 1 register at address 1 with payload
`[1, 2, 3, 4]` is decoded by `poll` with no NakCode, but `process` copies
`write_buffer[1..2]` — the bytes at offset 4 of the payload buffer, which
hold the packet's CRC byte and padding — instead of the payload at offset 0,
so the bank ends up holding `[217, 0, 0, 0]` (217 is the request's CRC byte)
and a subsequent read of the range cannot return the written data. -/
theorem roundtrip_write_stores_wrong_bytes :
    (poll 2 [false, false] (write4u8Request 1 [[1, 2, 3, 4]])).map (fun r =>
      r.map (fun pr => (pr.1.nak_code, pr.2,
        (process pr.1 [[0, 0, 0, 0], [0, 0, 0, 0]]).map (fun out =>
          (out.1, out.2))))) =
      Except.ok (some (none, [],
        some ([ACK], [[0, 0, 0, 0], [217, 0, 0, 0]]))) ∧
    (([217, 0, 0, 0] : List Nat) == [1, 2, 3, 4]) = false :=
  ⟨rfl, rfl⟩

/-- C2: the in-bounds claim fails on the code.  With `REGCNT = 130`, a valid
write request of 1 register at address 129 is decoded by `poll` with no
NakCode, but `process` slices the 128-entry `write_buffer` at `[129..130)`,
which is out of bounds: the model returns `none` (a Rust panic).  The repo's
own test (`usockets.rs`, write at register 65535 with `REGCNT = 65536`)
exercises exactly this and expects success. -/
theorem process_write_buffer_slice_out_of_bounds :
    (poll 130 (List.replicate 130 false) (write4u8Request 129 [[1, 2, 3, 4]])).map
      (fun r => r.map (fun pr =>
        (pr.1.nak_code, pr.1.write_buffer.isSome, pr.1.start_register + pr.1.count,
          process pr.1 (List.replicate 130 [0, 0, 0, 0])))) =
      Except.ok (some (none, true, 130, none)) :=
  rfl

/-- C10: every packet `poll` returns carries either no NakCode or one of
BadCrc, OutOfBounds, CountExceedsBounds, IndexWriteProtected — never
Unknown, SecondaryFailure or IncompletePacket, so the transport server's
panic branch on an Unknown code is unreachable from `poll` output. -/
theorem poll_nak_code_range {regcnt : Nat} {wp : List Bool} {input : List Nat}
    {pkt : UrapRecievedPacket} {rest : List Nat}
    (h : poll regcnt wp input = Except.ok (some (pkt, rest))) :
    pkt.nak_code = none ∨ pkt.nak_code = some NakCode.BadCrc ∨
    pkt.nak_code = some NakCode.OutOfBounds ∨
    pkt.nak_code = some NakCode.CountExceedsBounds ∨
    pkt.nak_code = some NakCode.IndexWriteProtected := by
  obtain ⟨head, a0, a1, hcase⟩ := poll_inv h
  rcases hcase with ⟨hw, body, hin, hlen, hpkt⟩ | ⟨hw, c, hin, hpkt⟩
  · rw [hpkt]
    unfold writeNakOf
    split
    · right; left; rfl
    split
    · right; right; left; rfl
    split
    · right; right; right; left; rfl
    split
    · right; right; right; right; rfl
    · left; rfl
  · rw [hpkt]
    unfold readNakOf
    split
    · right; left; rfl
    split
    · right; right; left; rfl
    split
    · right; right; right; left; rfl
    · left; rfl

theorem poll_nak_code_range_witness :
    (⟨3, 2, none, none⟩ : UrapRecievedPacket).nak_code = none ∨
    (⟨3, 2, none, none⟩ : UrapRecievedPacket).nak_code = some NakCode.BadCrc ∨
    (⟨3, 2, none, none⟩ : UrapRecievedPacket).nak_code = some NakCode.OutOfBounds ∨
    (⟨3, 2, none, none⟩ : UrapRecievedPacket).nak_code = some NakCode.CountExceedsBounds ∨
    (⟨3, 2, none, none⟩ : UrapRecievedPacket).nak_code = some NakCode.IndexWriteProtected :=
  @poll_nak_code_range 5 (List.replicate 5 false) (read4u8Request 2 3)
    ⟨3, 2, none, none⟩ [] (by rfl)

/-- C6: NAK atomicity: on any packet carrying a NakCode, `process` writes
exactly one byte (the NakCode ordinal), returns Ok, and leaves every
register unchanged; in particular a valid write request that touches a
write-protected register comes out of `poll` with `IndexWriteProtected` and
`process` answers with that single NAK byte and an unchanged bank. -/
theorem process_nak_atomicity :
    (∀ pkt regs nak, pkt.nak_code = some nak →
      process pkt regs = some ([nakCodeToByte nak], regs)) ∧
    (∀ regcnt wp head a0 a1 body extra regs,
      head &&& URAP_WRITE_OR ≠ 0 →
      body.length = ((head &&& 0x7F) + 1) * URAP_DATA_WIDTH + URAP_CRC_WIDTH →
      crc 0 (head :: a0 :: a1 :: body) = 0 →
      a0 + 256 * a1 < regcnt →
      a0 + 256 * a1 + ((head &&& 0x7F) + 1) ≤ regcnt →
      ((wp.drop (a0 + 256 * a1)).take ((head &&& 0x7F) + 1)).foldl
        (fun w r => w || r) false = true →
      (poll regcnt wp (head :: a0 :: a1 :: (body ++ extra))).map (fun r =>
        r.map (fun pr => (pr.1.nak_code, pr.2, process pr.1 regs))) =
        Except.ok (some (some NakCode.IndexWriteProtected, extra,
          some ([nakCodeToByte NakCode.IndexWriteProtected], regs)))) := by
  constructor
  · exact fun pkt regs nak h => process_nak_eq pkt regs nak h
  · intro regcnt wp head a0 a1 body extra regs hw hlen hcrc hsr hcnt hprot
    rw [poll_write_eq regcnt wp head a0 a1 body extra hw hlen]
    have hnak : writeNakOf regcnt wp (crc 0 (head :: a0 :: a1 :: body))
        (a0 + 256 * a1) ((head &&& 0x7F) + 1) =
        some NakCode.IndexWriteProtected := by
      unfold writeNakOf
      rw [hcrc]
      rw [if_neg (by omega), if_neg (by omega), if_neg (by omega), if_pos hprot]
    rw [hnak]
    simp only [Except.map, Option.map]
    rw [process_nak_eq _ regs NakCode.IndexWriteProtected rfl]

theorem process_nak_atomicity_witness :
    (poll 1 [true] (128 :: 0 :: 0 ::
        ([0, 0, 0, 0, crc 0 [128, 0, 0, 0, 0, 0, 0]] ++ []))).map (fun r =>
      r.map (fun pr => (pr.1.nak_code, pr.2, process pr.1 [[1, 2, 3, 4]]))) =
      Except.ok (some (some NakCode.IndexWriteProtected, [],
        some ([nakCodeToByte NakCode.IndexWriteProtected], [[1, 2, 3, 4]]))) :=
  process_nak_atomicity.2 1 [true] 128 0 0
    [0, 0, 0, 0, crc 0 [128, 0, 0, 0, 0, 0, 0]] [] [[1, 2, 3, 4]]
    (by decide) (by decide) (by decide) (by decide) (by decide) (by decide)

/-- C9: any byte outside `1..=6` converts to `NakCode::Unknown`, and when
the Primary reads such a byte in place of the ACK it returns
`Error::Nak(Unknown)` immediately, consuming no further response bytes. -/
theorem nak_unknown_decoding (b : Nat) (hb : ¬(1 ≤ b ∧ b ≤ 6)) :
    nakCodeOfByte b = NakCode.Unknown ∧
    (∀ s len rest, 1 ≤ len → len ≤ 127 → b ≠ ACK →
      read_4u8 s len (b :: rest) =
        some (read4u8Request s len,
          Except.error (PrimError.nak NakCode.Unknown), rest)) := by
  have hu : nakCodeOfByte b = NakCode.Unknown := by
    match b, hb with
    | 0, _ => rfl
    | 1, hb => exact absurd ⟨by omega, by omega⟩ hb
    | 2, hb => exact absurd ⟨by omega, by omega⟩ hb
    | 3, hb => exact absurd ⟨by omega, by omega⟩ hb
    | 4, hb => exact absurd ⟨by omega, by omega⟩ hb
    | 5, hb => exact absurd ⟨by omega, by omega⟩ hb
    | 6, hb => exact absurd ⟨by omega, by omega⟩ hb
    | (n + 7), _ => rfl
  refine ⟨hu, ?_⟩
  intro s len rest h1 h2 hback
  unfold read_4u8
  rw [if_pos (⟨by unfold URAP_COUNT_MAX; omega, by omega⟩ :
    len < URAP_COUNT_MAX ∧ len ≠ 0)]
  have ht : takeExact 1 (b :: rest) = some ([b], rest) := by
    simpa using takeExact_append [b] rest
  rw [ht]
  simp only [List.getD_cons_zero]
  rw [if_pos hback, hu]

theorem nak_unknown_decoding_witness :
    read_4u8 0 1 (7 :: [9]) =
      some (read4u8Request 0 1,
        Except.error (PrimError.nak NakCode.Unknown), [9]) :=
  (nak_unknown_decoding 7 (by decide)).2 0 1 [9] (by decide) (by decide) (by decide)

/-- C7: the read response the Secondary emits is
`ACK :: register bytes ++ [crc 0 (register bytes)]` — the trailing CRC is
computed over the register bytes only, excluding the leading ACK byte — and
the Primary checks exactly `crc (crc 0 data) [crc byte]` over the data bytes
it received, not including the ACK byte. -/
theorem read_response_crc_excludes_ack :
    (∀ pkt regs out regs2, pkt.nak_code = none → pkt.write_buffer = none →
      process pkt regs = some (out, regs2) →
      regs2 = regs ∧
      out = ACK ::
        (((regs.drop pkt.start_register).take pkt.count).flatten ++
          [crc 0 ((regs.drop pkt.start_register).take pkt.count).flatten])) ∧
    (∀ s len d c extra, 1 ≤ len → len ≤ 127 → d.length = len * URAP_DATA_WIDTH →
      read_4u8 s len (ACK :: (d ++ c :: extra)) =
        some (read4u8Request s len,
          if crc (crc 0 d) [c] ≠ 0 then Except.error PrimError.badCrc
          else Except.ok d, extra)) := by
  constructor
  · intro pkt regs out regs2 hnak hwb hp
    unfold process at hp
    rw [hnak, hwb] at hp
    dsimp only at hp
    cases hsl : sliceRange regs pkt.start_register
        (pkt.start_register + pkt.count) with
    | none => rw [hsl] at hp; cases hp
    | some regs1 =>
      rw [hsl] at hp
      simp only at hp
      rw [Option.some.injEq, Prod.mk.injEq] at hp
      obtain ⟨ho, hr⟩ := hp
      have hregs1 : regs1 = (regs.drop pkt.start_register).take pkt.count := by
        unfold sliceRange at hsl
        split at hsl
        · rw [Option.some.injEq] at hsl
          rw [← hsl, Nat.add_sub_cancel_left]
        · cases hsl
      subst hregs1
      exact ⟨hr.symm, ho.symm⟩
  · intro s len d c extra h1 h2 hd
    unfold read_4u8
    rw [if_pos (⟨by unfold URAP_COUNT_MAX; omega, by omega⟩ :
      len < URAP_COUNT_MAX ∧ len ≠ 0)]
    have ht1 : takeExact 1 (ACK :: (d ++ c :: extra)) =
        some ([ACK], d ++ c :: extra) := by
      simpa using takeExact_append [ACK] (d ++ c :: extra)
    rw [ht1]
    simp only [List.getD_cons_zero]
    rw [if_neg (fun hc => hc rfl)]
    have ht2 : takeExact (len * URAP_DATA_WIDTH) (d ++ c :: extra) =
        some (d, c :: extra) := by
      rw [← hd]; exact takeExact_append d (c :: extra)
    rw [ht2]
    have ht3 : takeExact URAP_CRC_WIDTH (c :: extra) = some ([c], extra) := by
      simpa using takeExact_append [c] extra
    simp only
    rw [ht3]
    simp only
    split <;> rfl

theorem read_response_crc_excludes_ack_witness :
    read_4u8 0 1 (ACK :: ([1, 2, 3, 4] ++ crc 0 [1, 2, 3, 4] :: [])) =
      some (read4u8Request 0 1,
        if crc (crc 0 [1, 2, 3, 4]) [crc 0 [1, 2, 3, 4]] ≠ 0 then
          Except.error PrimError.badCrc
        else Except.ok [1, 2, 3, 4], []) :=
  read_response_crc_excludes_ack.2 0 1 [1, 2, 3, 4] (crc 0 [1, 2, 3, 4]) []
    (by decide) (by decide) (by decide)

/-- C3: on every packet `poll` decodes, the NakCode is assigned by the fixed
priority cascade — CRC over the full consumed packet nonzero → BadCrc, then
`start_register >= REGCNT` → OutOfBounds, then
`start_register + count > REGCNT` → CountExceedsBounds, then (for write
requests only) any register in range write-protected → IndexWriteProtected,
else no NakCode. -/
theorem poll_validation_priority {regcnt : Nat} {wp : List Bool}
    {input : List Nat} {pkt : UrapRecievedPacket} {rest : List Nat}
    (h : poll regcnt wp input = Except.ok (some (pkt, rest))) :
    input.take (input.length - rest.length) ++ rest = input ∧
    pkt.nak_code =
      (if crc 0 (input.take (input.length - rest.length)) ≠ 0 then
        some NakCode.BadCrc
       else if regcnt ≤ pkt.start_register then some NakCode.OutOfBounds
       else if regcnt < pkt.start_register + pkt.count then
        some NakCode.CountExceedsBounds
       else if pkt.write_buffer.isSome &&
           ((wp.drop pkt.start_register).take pkt.count).foldl
             (fun w r => w || r) false then
        some NakCode.IndexWriteProtected
       else none) := by
  obtain ⟨head, a0, a1, hcase⟩ := poll_inv h
  rcases hcase with ⟨hw, body, hin, hlen, hpkt⟩ | ⟨hw, c, hin, hpkt⟩
  · subst hin
    have hcons : (head :: a0 :: a1 :: (body ++ rest)) =
        (head :: a0 :: a1 :: body) ++ rest := rfl
    have hlen2 : (head :: a0 :: a1 :: (body ++ rest)).length - rest.length =
        (head :: a0 :: a1 :: body).length := by
      simp [List.length_append]
      omega
    have htake : (head :: a0 :: a1 :: (body ++ rest)).take
        ((head :: a0 :: a1 :: (body ++ rest)).length - rest.length) =
        head :: a0 :: a1 :: body := by
      rw [hlen2, hcons, List.take_left]
    refine ⟨by rw [htake]; rfl, ?_⟩
    rw [htake, hpkt]
    unfold writeNakOf
    simp only [Option.isSome_some, Bool.true_and]
  · subst hin
    have hcons : (head :: a0 :: a1 :: c :: rest) =
        [head, a0, a1, c] ++ rest := rfl
    have hlen2 : (head :: a0 :: a1 :: c :: rest).length - rest.length =
        ([head, a0, a1, c] : List Nat).length := by
      simp
      omega
    have htake : (head :: a0 :: a1 :: c :: rest).take
        ((head :: a0 :: a1 :: c :: rest).length - rest.length) =
        [head, a0, a1, c] := by
      rw [hlen2, hcons, List.take_left]
    refine ⟨by rw [htake]; rfl, ?_⟩
    rw [htake, hpkt]
    unfold readNakOf
    simp only [Option.isSome_none, Bool.false_and, Bool.false_eq_true, if_false]

theorem poll_validation_priority_witness :
    (read4u8Request 2 3).take ((read4u8Request 2 3).length - List.length ([] : List Nat))
        ++ ([] : List Nat) = read4u8Request 2 3 ∧
    (⟨3, 2, none, none⟩ : UrapRecievedPacket).nak_code =
      (if crc 0 ((read4u8Request 2 3).take
          ((read4u8Request 2 3).length - List.length ([] : List Nat))) ≠ 0 then
        some NakCode.BadCrc
       else if 5 ≤ (⟨3, 2, none, none⟩ : UrapRecievedPacket).start_register then
        some NakCode.OutOfBounds
       else if 5 < (⟨3, 2, none, none⟩ : UrapRecievedPacket).start_register +
          (⟨3, 2, none, none⟩ : UrapRecievedPacket).count then
        some NakCode.CountExceedsBounds
       else if (⟨3, 2, none, none⟩ : UrapRecievedPacket).write_buffer.isSome &&
           (((List.replicate 5 false).drop
               (⟨3, 2, none, none⟩ : UrapRecievedPacket).start_register).take
             (⟨3, 2, none, none⟩ : UrapRecievedPacket).count).foldl
             (fun w r => w || r) false then
        some NakCode.IndexWriteProtected
       else none) :=
  @poll_validation_priority 5 (List.replicate 5 false) (read4u8Request 2 3)
    ⟨3, 2, none, none⟩ [] (by rfl)

/-- Helper: flipping bit `j` of the byte at position `i` of a CRC-valid byte
list makes the running CRC of the list nonzero. -/
theorem crc_set_ne {l : List Nat} {i j : Nat}
    (hbytes : ∀ b ∈ l, b < 256) (hi : i < l.length) (hj : j < 8)
    (h0 : crc 0 l = 0) :
    crc 0 (l.set i (l.getD i 0 ^^^ 2 ^ j)) ≠ 0 := by
  have hb : l.getD i 0 < 256 := by
    rw [List.getD_eq_getElem?_getD, List.getElem?_eq_getElem hi]
    exact hbytes _ (List.getElem_mem hi)
  have h2j : (2 : Nat) ^ j < 256 := by
    calc (2 : Nat) ^ j < 2 ^ 8 := Nat.pow_lt_pow_right (by omega) hj
    _ = 256 := by norm_num
  have hb' : l.getD i 0 ^^^ 2 ^ j < 256 := xor_lt_256 hb h2j
  have h2jpos : 0 < (2 : Nat) ^ j := Nat.pos_pow_of_pos j (by omega)
  have hne : l.getD i 0 ≠ l.getD i 0 ^^^ 2 ^ j := by
    intro hc
    have h1 := congrArg (fun z => l.getD i 0 ^^^ z) hc
    simp only [Nat.xor_self, Nat.xor_cancel_left] at h1
    omega
  have hset : l.set i (l.getD i 0 ^^^ 2 ^ j) =
      l.take i ++ (l.getD i 0 ^^^ 2 ^ j) :: l.drop (i + 1) := by
    rw [List.set_eq_take_append_cons_drop, if_pos hi]
  have hdecomp : l.take i ++ l.getD i 0 :: l.drop (i + 1) = l := by
    rw [List.getD_eq_getElem?_getD, List.getElem?_eq_getElem hi]
    simp
  have hpost : ∀ x ∈ l.drop (i + 1), x < 256 := fun x hx =>
    hbytes x (List.mem_of_mem_drop hx)
  rw [hset]
  rw [← hdecomp] at h0
  exact crc_flip_ne hb hb' hne hpost h0

/-- C5 counterexample: the single-bit corruption claim fails for the head
byte.  The valid write request `write4u8Request 0 [[0, 5, 6, 7]]` is
`[128, 0, 0, 0, 5, 6, 7, 206]`; flipping bit 7 of the head byte turns it
into a read request whose 4 consumed bytes `[0, 0, 0, 0]` have CRC 0, so
`poll` returns a packet with no NakCode at all instead of `BadCrc`. -/
theorem bitflip_head_undetected :
    crc 0 (write4u8Request 0 [[0, 5, 6, 7]]) = 0 ∧
    (write4u8Request 0 [[0, 5, 6, 7]]).getD 0 0 = 128 ∧
    (poll 1 [false]
      ((write4u8Request 0 [[0, 5, 6, 7]]).set 0
        ((write4u8Request 0 [[0, 5, 6, 7]]).getD 0 0 ^^^ 2 ^ 7))).map (fun r =>
          r.map (fun pr => (pr.1.nak_code, pr.1.write_buffer.isSome, pr.2))) =
      Except.ok (some (none, false, [5, 6, 7, 206])) :=
  ⟨rfl, rfl, rfl⟩

/-- C5 amended: flipping a single bit in any byte of a transmitted request
packet other than the head byte — i.e. in the address bytes, payload bytes,
or CRC byte — makes the Secondary's `poll` return a packet carrying
`BadCrc`, and the subsequent `process` call writes the single NAK byte and
performs no register mutation.  (A flip inside the head byte changes the
parsed mode/count and need not be detected, per the counterexample.) -/
theorem bitflip_nonhead_detected (regcnt : Nat) (wp : List Bool) (head : Nat)
    (t extra : List Nat) (i j : Nat) (regs : List (List Nat))
    (hbytes : ∀ b ∈ head :: t, b < 256)
    (hcrc0 : crc 0 (head :: t) = 0)
    (hshape : t.length = URAP_REG_WIDTH +
      (if head &&& URAP_WRITE_OR ≠ 0 then
        ((head &&& 0x7F) + 1) * URAP_DATA_WIDTH + URAP_CRC_WIDTH
       else URAP_CRC_WIDTH))
    (hi : i < t.length) (hj : j < 8) :
    (poll regcnt wp ((head :: t.set i (t.getD i 0 ^^^ 2 ^ j)) ++ extra)).map
      (fun r => r.map (fun pr => (pr.1.nak_code, pr.2, process pr.1 regs))) =
      Except.ok (some (some NakCode.BadCrc, extra,
        some ([nakCodeToByte NakCode.BadCrc], regs))) := by
  obtain ⟨t', ht'⟩ : ∃ u, u = t.set i (t.getD i 0 ^^^ 2 ^ j) := ⟨_, rfl⟩
  rw [← ht']
  have hlen' : t'.length = t.length := by rw [ht']; exact List.length_set t i _
  have hsetfull : (head :: t).set (i + 1) ((head :: t).getD (i + 1) 0 ^^^ 2 ^ j) =
      head :: t' := by
    rw [ht']
    rfl
  have hcrcne : crc 0 (head :: t') ≠ 0 := by
    rw [← hsetfull]
    exact crc_set_ne hbytes (by simp; omega) hj hcrc0
  by_cases hw : head &&& URAP_WRITE_OR ≠ 0
  · rw [if_pos hw] at hshape
    have hlen2 : t'.length =
        (((head &&& 0x7F) + 1) * URAP_DATA_WIDTH + URAP_CRC_WIDTH) + 2 := by
      simp only [URAP_REG_WIDTH] at hshape
      omega
    obtain ⟨a0, a1, body, hts⟩ : ∃ a b u, t' = a :: b :: u := by
      match t', hlen2 with
      | a :: b :: u, _ => exact ⟨a, b, u, rfl⟩
    have hblen : body.length =
        ((head &&& 0x7F) + 1) * URAP_DATA_WIDTH + URAP_CRC_WIDTH := by
      rw [hts] at hlen2
      simp at hlen2
      omega
    rw [hts]
    rw [show (head :: a0 :: a1 :: body) ++ extra =
      head :: a0 :: a1 :: (body ++ extra) from rfl]
    rw [poll_write_eq regcnt wp head a0 a1 body extra hw hblen]
    have hC : crc 0 (head :: a0 :: a1 :: body) ≠ 0 := by
      rw [show head :: a0 :: a1 :: body = head :: t' from by rw [hts]]
      exact hcrcne
    have hnak : writeNakOf regcnt wp (crc 0 (head :: a0 :: a1 :: body))
        (a0 + 256 * a1) ((head &&& 0x7F) + 1) = some NakCode.BadCrc := by
      unfold writeNakOf
      rw [if_pos hC]
    rw [hnak]
    simp only [Except.map, Option.map]
    rw [process_nak_eq _ regs NakCode.BadCrc rfl]
  · rw [if_neg hw] at hshape
    rw [not_ne_iff] at hw
    have hlen2 : t'.length = 1 + 2 := by
      simp only [URAP_REG_WIDTH, URAP_CRC_WIDTH] at hshape
      omega
    obtain ⟨a0, a1, c, hts⟩ : ∃ a b u, t' = [a, b, u] := by
      match t', hlen2 with
      | [a, b, u], _ => exact ⟨a, b, u, rfl⟩
    rw [hts]
    rw [show (head :: a0 :: a1 :: [c]) ++ extra =
      head :: a0 :: a1 :: c :: extra from rfl]
    rw [poll_read_eq regcnt wp head a0 a1 c extra hw]
    have hC : crc 0 [head, a0, a1, c] ≠ 0 := by
      rw [show [head, a0, a1, c] = head :: t' from by rw [hts]]
      exact hcrcne
    have hnak : readNakOf regcnt (crc 0 [head, a0, a1, c])
        (a0 + 256 * a1) ((head &&& 0x7F) + 1) = some NakCode.BadCrc := by
      unfold readNakOf
      rw [if_pos hC]
    rw [hnak]
    simp only [Except.map, Option.map]
    rw [process_nak_eq _ regs NakCode.BadCrc rfl]

theorem bitflip_nonhead_detected_witness :
    (poll 1 [false] ((128 :: ([0, 0, 0, 5, 6, 7, 206].set 0
        ([0, 0, 0, 5, 6, 7, 206].getD 0 0 ^^^ 2 ^ 0))) ++ [])).map
      (fun r => r.map (fun pr => (pr.1.nak_code, pr.2,
        process pr.1 [[9, 9, 9, 9]]))) =
      Except.ok (some (some NakCode.BadCrc, [],
        some ([nakCodeToByte NakCode.BadCrc], [[9, 9, 9, 9]]))) :=
  bitflip_nonhead_detected 1 [false] 128 [0, 0, 0, 5, 6, 7, 206] [] 0 0
    [[9, 9, 9, 9]] (by decide) (by decide) (by decide) (by decide) (by decide)

end Urap
